import Mathlib

/-!
A shallow embedding of the crawl engine of `src/services/crawler.py`
(`WebsiteCrawler`): URL admission, link extraction, per-URL fetch
classification, the round-based frontier loop, and crawl statistics.

HTTP responses are supplied by an oracle `web : String → FetchOutcome`;
HTML parsing (BeautifulSoup) is abstracted by a `Doc` record carrying the
parsed pieces the extractor reads (title text, anchor hrefs, image tags,
JSON-LD parse results, cleaned text).  The in-place `decompose` of
script/style/header/footer/nav subtrees performed by `_extract_content`
before `_extract_links` runs is modelled by the `in_decomposed` flag on
anchors: link extraction only sees anchors outside those subtrees.
`urllib.parse.urljoin` is a parameter `uj`; a concrete model
`urljoin_model` instantiates it in concrete runs.  The async round loop is
modelled with explicit fuel (an upper bound on the number of rounds); all
state updates happen on the single coordinating control flow exactly as in
the Python source, so the embedding is sequential.
-/

namespace SeoSage

/-!
String primitives.  The embedding implements the string operations the
Python code uses (`startswith`, `endswith`, `in`, `strip`, `lower`,
`split`) by structural recursion over the character list of the string,
with the same semantics as the Python operations (ASCII reading for
case and whitespace). -/

/-- Split off the first occurrence of `sep`: `some (before, after)`, or
`none` when `sep` does not occur. -/
def breakOn (sep : List Char) : List Char → Option (List Char × List Char)
  | [] => if sep.isPrefixOf [] then some ([], []) else none
  | c :: cs =>
    if sep.isPrefixOf (c :: cs) then some ([], (c :: cs).drop sep.length)
    else
      match breakOn sep cs with
      | some (pre, post) => some (c :: pre, post)
      | none => none

/-- Substring test, modelling the Python `in` operator on strings. -/
def str_in (pat s : String) : Bool := (breakOn pat.data s.data).isSome

/-- Python `s.startswith(pre)`. -/
def strStartsWith (s pre : String) : Bool := pre.data.isPrefixOf s.data

/-- Python `s.endswith(suf)`. -/
def strEndsWith (s suf : String) : Bool := suf.data.isSuffixOf s.data

/-- Python `s.strip()`. -/
def strTrim (s : String) : String :=
  ⟨((s.data.dropWhile Char.isWhitespace).reverse.dropWhile
    Char.isWhitespace).reverse⟩

/-- Python `s.lower()`. -/
def strToLower (s : String) : String := ⟨s.data.map Char.toLower⟩

/-- The text before the first occurrence of `sep` (the whole string
when `sep` does not occur): Python `s.split(sep)[0]`. -/
def take_until_sep (sep s : String) : String :=
  match breakOn sep.data s.data with
  | some (pre, _) => ⟨pre⟩
  | none => s

/-- The pieces of `s.split(c)` for a single-character separator. -/
def splitCharAux (c : Char) : List Char → List Char → List (List Char)
  | [], acc => [acc.reverse]
  | x :: xs, acc =>
    if x = c then acc.reverse :: splitCharAux c xs []
    else splitCharAux c xs (x :: acc)

/-- Python `s.split(c)` for a one-character separator. -/
def splitChar (c : Char) (s : String) : List String :=
  (splitCharAux c s.data []).map (fun l => ⟨l⟩)

/-- Python `sep.join(parts)`. -/
def joinWith (sep : String) : List String → String
  | [] => ""
  | [x] => x
  | x :: y :: rest => x ++ sep ++ joinWith sep (y :: rest)

/-- Characters matched by the regex class `\w` (ASCII reading). -/
def isWordChar (c : Char) : Bool := c.isAlphanum || c = '_'

/-- Python `len(re.findall(r'\w+', s))`: the number of maximal runs of word
characters in `s` (crawler.py line 234). -/
def count_words (s : String) : Nat :=
  (s.toList.foldl
    (fun st c =>
      if isWordChar c then (true, if st.1 then st.2 else st.2 + 1)
      else (false, st.2))
    ((false : Bool), 0)).2

/-- The fixed denylist of non-content extensions
(`skip_extensions`, crawler.py lines 283-287). -/
def skip_extensions : List String :=
  [".jpg", ".jpeg", ".png", ".gif", ".pdf", ".doc", ".docx",
   ".xls", ".xlsx", ".ppt", ".pptx", ".zip", ".tar", ".gz",
   ".mp3", ".mp4", ".avi", ".mov", ".wmv", ".css", ".js"]

/-- Translation of `WebsiteCrawler._should_visit_url` (crawler.py lines 263-292). -/
def should_visit (url base_url : String) : Bool :=
  if ¬ strStartsWith url base_url then false
  else if url.data.contains '#' then false
  else if skip_extensions.any
      (fun ext => strEndsWith (strToLower url) ext) then false
  else true

/-- Model of `urllib.parse.urlparse` followed by
`f"{parsed_url.scheme}://{parsed_url.netloc}"` (crawler.py lines 85-86):
the scheme is the text before the first `://` and the netloc runs to the
first `/`, `?` or `#` after it; a string with no `://` has empty scheme
and netloc, giving `"://"`. -/
def url_base (u : String) : String :=
  match breakOn "://".data u.data with
  | some (scheme, rest) =>
      String.mk scheme ++ "://" ++
        ⟨rest.takeWhile (fun c => !(c == '/' || c == '?' || c == '#'))⟩
  | none => "://"

/-- Model of `urllib.parse.urljoin` for the href shapes exercised here:
absolute URLs pass through, fragment-only hrefs attach to the base,
root-relative paths attach to the base's origin, and other relative paths
replace the base's last path segment. -/
def urljoin_model (base rel : String) : String :=
  if rel = "" then base
  else if str_in "://" rel then rel
  else if strStartsWith rel "#" then take_until_sep "#" base ++ rel
  else if strStartsWith rel "/" then url_base base ++ rel
  else
    let parts := splitChar '/' base
    if parts.length ≤ 3 then base ++ "/" ++ rel
    else joinWith "/" parts.dropLast ++ "/" ++ rel

/-- An `<a>` tag of the parsed document with an `href` attribute
(`soup.find_all("a", href=True)`).  `in_decomposed` records whether the
anchor sits inside a script/style/header/footer/nav subtree, which
`_extract_content` removes from the shared soup (crawler.py lines
299-303) before `_extract_links` runs. -/
structure Anchor where
  href : String
  in_decomposed : Bool
deriving Repr, DecidableEq

/-- An `<img>` tag as seen by `_extract_images`; `src` is `""` when the
attribute is absent (`img.get("src", "")`). -/
structure ImgTag where
  src : String
  alt : String
  title : String
deriving Repr, DecidableEq

/-- A parsed HTML document: the pieces of the BeautifulSoup tree that the
extraction helpers read.  `title_tag` is the raw text of the first
`<title>` (`none` when absent); `meta_description`/`meta_keywords` are
the raw `content` attributes of the corresponding `<meta>` tags (`none`
when the tag is absent); `content` is the cleaned visible text produced
by `_extract_content` (its whitespace normalisation is abstracted, its
tree-mutating side effect is the `in_decomposed` flag on anchors);
`ld_json` holds one entry per `<script type="application/ld+json">`
block, `none` for blocks whose JSON fails to parse. -/
structure Doc where
  html : String
  title_tag : Option String
  content : String
  meta_description : Option String
  meta_keywords : Option String
  h1s : List String
  h2s : List String
  anchors : List Anchor
  imgs : List ImgTag
  ld_json : List (Option String)
deriving Repr, DecidableEq

/-- The outcome the HTTP layer hands `_process_url` for one GET:
either an exception (network failure, timeout, parse error — the
`except Exception` arm, crawler.py line 258) carrying `str(e)`, or a
response with its `Content-Type`, status, the wall-clock milliseconds
elapsed when the response object is returned (headers received,
crawler.py line 206) and when the body has been fully read
(`response.text()`, line 214), and the parsed document. -/
inductive FetchOutcome where
  | exn (msg : String)
  | response (content_type : String) (status : Nat)
      (ms_to_headers : Nat) (ms_to_body_read : Nat) (doc : Doc)
deriving Repr, DecidableEq

/-- The `PageData` dataclass (crawler.py lines 14-30). -/
structure PageData where
  url : String
  title : String
  content : String
  html : String
  meta_description : Option String
  meta_keywords : Option String
  h1s : List String
  h2s : List String
  internal_links : List String
  external_links : List String
  images : List ImgTag
  status_code : Nat
  load_time_ms : Nat
  word_count : Nat
  schema_org : List String
deriving Repr, DecidableEq

/-- Translation of `_extract_title` (crawler.py lines 294-297). -/
def extract_title (d : Doc) : String :=
  match d.title_tag with
  | some t => strTrim t
  | none => ""

/-- Translation of `_extract_meta_description` (crawler.py lines 315-318). -/
def extract_meta_description (d : Doc) : Option String :=
  d.meta_description.map strTrim

/-- Translation of `_extract_meta_keywords` (crawler.py lines 320-323). -/
def extract_meta_keywords (d : Doc) : Option String :=
  d.meta_keywords.map strTrim

/-- Translation of `_extract_headings` (crawler.py lines 325-328). -/
def extract_headings (hs : List String) : List String :=
  hs.map strTrim

/-- The hrefs `_extract_links` actually iterates over: anchors surviving
the `decompose` calls of `_extract_content`, in document order. -/
def live_hrefs (d : Doc) : List String :=
  (d.anchors.filter (fun a => ¬ a.in_decomposed)).map Anchor.href

/-- The href prefixes skipped by `_extract_links` (crawler.py line 339). -/
def skip_href_prefixes : List String := ["javascript:", "mailto:", "tel:"]

/-- Lines 336 and 342-347 of `_extract_links`: trim the raw href,
resolve it against the current page URL unless it is already absolute
(`href.startswith(("http://", "https://"))`), then drop everything from
the first `#` (`href.split("#")[0]`). -/
def resolve_href (uj : String → String → String) (current_url raw : String) :
    String :=
  let href := strTrim raw
  let href :=
    if strStartsWith href "http://" = true ∨ strStartsWith href "https://" = true
    then href
    else uj current_url href
  take_until_sep "#" href

/-- The loop body of `_extract_links` (crawler.py lines 335-355), as a
recursion over the remaining hrefs carrying the two accumulators. -/
def extract_links_go (uj : String → String → String)
    (base_url current_url : String) :
    List String → List String × List String → List String × List String
  | [], acc => acc
  | raw :: rest, (internal, external) =>
    let href := strTrim raw
    if href = "" ∨ skip_href_prefixes.any (fun p => strStartsWith href p) then
      extract_links_go uj base_url current_url rest (internal, external)
    else
      let href := resolve_href uj current_url raw
      if strStartsWith href base_url then
        extract_links_go uj base_url current_url rest
          (if href ∈ internal then (internal, external)
           else (internal ++ [href], external))
      else
        extract_links_go uj base_url current_url rest
          (if href ∈ external then (internal, external)
           else (internal, external ++ [href]))

/-- Translation of `_extract_links` (crawler.py lines 330-357). -/
def extract_links (uj : String → String → String) (hrefs : List String)
    (base_url current_url : String) : List String × List String :=
  extract_links_go uj base_url current_url hrefs ([], [])

/-- Translation of `_extract_images` (crawler.py lines 359-378): note that image `src`
attributes resolve against the crawl origin `base_url`, not the page
URL. -/
def extract_images (uj : String → String → String) (base_url : String) :
    List ImgTag → List ImgTag
  | [] => []
  | img :: rest =>
    if img.src = "" then extract_images uj base_url rest
    else
      let src :=
        if strStartsWith img.src "http://" = true ∨
            strStartsWith img.src "https://" = true then
          img.src
        else uj base_url img.src
      ⟨src, img.alt, img.title⟩ :: extract_images uj base_url rest

/-- Translation of `_extract_schema_org` (crawler.py lines 380-393): keep the parsed
blocks, silently dropping those whose JSON parse failed. -/
def extract_schema_org (blocks : List (Option String)) : List String :=
  blocks.filterMap id

/-- Translation of `_process_url` (crawler.py lines 178-261): classify the fetch outcome
and on success build the `PageData`.  Returns the Python tuple
`(url, page_data, new_urls, error)`.  The `depth` parameter is accepted
and unused, as in the source. -/
def process_url (web : String → FetchOutcome)
    (uj : String → String → String) (url : String) (_depth : Nat)
    (base_url : String) :
    String × Option PageData × List String × Option String :=
  match web url with
  | .exn msg => (url, none, [], some msg)
  | .response content_type status ms_to_headers _ms_to_body_read doc =>
    let load_time_ms := ms_to_headers
    if ¬ str_in "text/html" (strToLower content_type) then
      (url, none, [], some ("Not HTML content: " ++ content_type))
    else if 400 ≤ status then
      (url, none, [], some ("HTTP status " ++ toString status))
    else
      let content := doc.content
      let (internal_links, external_links) :=
        extract_links uj (live_hrefs doc) base_url url
      let page_data : PageData :=
        { url := url
          title := extract_title doc
          content := content
          html := doc.html
          meta_description := extract_meta_description doc
          meta_keywords := extract_meta_keywords doc
          h1s := extract_headings doc.h1s
          h2s := extract_headings doc.h2s
          internal_links := internal_links
          external_links := external_links
          images := extract_images uj base_url doc.imgs
          status_code := status
          load_time_ms := load_time_ms
          word_count := count_words content
          schema_org := extract_schema_org doc.ld_json }
      (url, some page_data, internal_links, none)

/-- The engine-core configuration.  `respect_robots`, `user_agent` and
`timeout` only parametrise the HTTP layer (which the `web` oracle
abstracts) and `respect_robots` is never consulted anywhere in the
crawl path, so only the three limits that steer the engine are
carried.  The source stores Python ints (`WebsiteCrawler.__init__`,
crawler.py lines 45-70, no validation of any kind); `PyConfig` and
`crawl_py` below model that unvalidated entry — a negative
`max_concurrent_requests` raises from `asyncio.Semaphore` and a zero
one makes the round loop spin — while the engine core uses the clamped
`Nat` limits, which `int_guard_iff_clamped` proves agree with the
Python int comparisons in both loop guards. -/
structure Config where
  max_pages : Nat
  max_depth : Nat
  max_concurrent_requests : Nat
deriving Repr, DecidableEq

/-- One frontier entry, the dict `{"url": ..., "depth": ...}`. -/
structure Entry where
  url : String
  depth : Nat
deriving Repr, DecidableEq

/-- The mutable state of one `crawl` invocation (crawler.py lines
88-93), plus the ghost field `fetched_log` recording, in dispatch order,
the `(url, depth)` pairs for which `_process_url` is invoked — pure
instrumentation used to state the once-per-URL properties. -/
structure CrawlState where
  visited_urls : List String
  pages_data : List (String × PageData)
  error_urls : List (String × String)
  urls_to_visit : List Entry
  site_structure : List (String × List String)
  fetched_log : List (String × Nat)
deriving Repr, DecidableEq

/-- The dispatch loop of a round (crawler.py lines 113-120): walk the
popped batch left to right; each entry whose URL is unvisited and
admitted is marked visited immediately and dispatched. -/
def dispatch (base_url : String) :
    List Entry → List String × List Entry → List String × List Entry
  | [], acc => acc
  | e :: rest, (visited, tasks) =>
    if e.url ∉ visited ∧ should_visit e.url base_url then
      dispatch base_url rest (visited ++ [e.url], tasks ++ [e])
    else
      dispatch base_url rest (visited, tasks)

/-- The inner enqueue loop (crawler.py lines 151-155): append each new
URL not yet visited, not already queued and admitted, at the given
depth. -/
def enqueue_links (base_url : String) (visited : List String)
    (depth' : Nat) : List Entry → List String → List Entry
  | frontier, [] => frontier
  | frontier, nu :: rest =>
    if nu ∉ visited ∧ nu ∉ frontier.map Entry.url ∧ should_visit nu base_url
    then
      enqueue_links base_url visited depth' (frontier ++ [⟨nu, depth'⟩]) rest
    else
      enqueue_links base_url visited depth' frontier rest

/-- Frontier growth for one successful page (crawler.py lines 150-155):
links found at `current_depth` are enqueued at `current_depth + 1` only
when `current_depth < max_depth`. -/
def add_new_urls (cfg : Config) (base_url : String) (visited : List String)
    (frontier : List Entry) (current_depth : Nat) (new_urls : List String) :
    List Entry :=
  if current_depth < cfg.max_depth then
    enqueue_links base_url visited (current_depth + 1) frontier new_urls
  else frontier

/-- The originating-depth recovery of crawler.py line 149:
`next((u["depth"] for u in current_batch if u["url"] == url), 0)`. -/
def depth_of (batch : List Entry) (url : String) : Nat :=
  ((batch.find? (fun u => u.url == url)).map Entry.depth).getD 0

/-- Python truthiness of an optional string: `if error:` is taken only
when `error` is neither `None` nor the empty string. -/
def str_truthy : Option String → Bool
  | none => false
  | some s => s ≠ ""

/-- Routing of one worker result (crawler.py lines 136-155).  Note the
Python truthiness of `if error:`: an error string is recorded only when
it is non-empty; with a falsy error the `elif page_data:` branch runs,
which for a failed fetch (page `None`) records nothing at all.  The
originating depth is recovered by searching the current batch for the
result's URL, defaulting to 0 (line 149). -/
def handle_result (cfg : Config) (base_url : String) (batch : List Entry)
    (visited : List String) (s : CrawlState)
    (r : String × Option PageData × List String × Option String) :
    CrawlState :=
  let (url, page_data, new_urls, error) := r
  if str_truthy error then
    { s with error_urls := s.error_urls ++ [(url, error.getD "")] }
  else
    match page_data with
    | none => s
    | some pd =>
      let s :=
        { s with
          pages_data := s.pages_data ++ [(url, pd)]
          site_structure := s.site_structure ++
            [(url,
              pd.internal_links.filter
                (fun l => strStartsWith l base_url))] }
      let current_depth := depth_of batch url
      { s with
        urls_to_visit :=
          add_new_urls cfg base_url visited s.urls_to_visit current_depth
            new_urls }

/-- The result-processing loop of a round (crawler.py lines 123-155):
`asyncio.gather` preserves task order, so the results are those of the
dispatched entries in dispatch order; each is produced by `_process_url`
and routed by `handle_result`. -/
def process_results (cfg : Config) (web : String → FetchOutcome)
    (uj : String → String → String) (base_url : String)
    (batch : List Entry) (visited : List String) :
    List Entry → CrawlState → CrawlState
  | [], s => s
  | e :: rest, s =>
    process_results cfg web uj base_url batch visited rest
      (handle_result cfg base_url batch visited s
        (process_url web uj e.url e.depth base_url))

/-- One iteration of the `while` loop (crawler.py lines 107-155): pop a
batch of up to `max_concurrent_requests` entries, dispatch the
admissible unvisited ones (marking them visited), run the workers and
route their results.  The dispatched entries are appended to the ghost
`fetched_log`. -/
def crawl_round (cfg : Config) (web : String → FetchOutcome)
    (uj : String → String → String) (base_url : String)
    (st : CrawlState) : CrawlState :=
  let batch := st.urls_to_visit.take cfg.max_concurrent_requests
  let rest := st.urls_to_visit.drop cfg.max_concurrent_requests
  let (visited', tasks) := dispatch base_url batch (st.visited_urls, [])
  let st1 : CrawlState :=
    { st with
      visited_urls := visited'
      urls_to_visit := rest
      fetched_log := st.fetched_log ++ tasks.map (fun e => (e.url, e.depth)) }
  process_results cfg web uj base_url batch visited' tasks st1

/-- The `while urls_to_visit and len(pages_data) < self.max_pages` loop
(crawler.py line 107), with explicit fuel bounding the number of rounds;
once the guard fails the state is returned unchanged regardless of
remaining fuel. -/
def crawl_loop (cfg : Config) (web : String → FetchOutcome)
    (uj : String → String → String) (base_url : String) :
    Nat → CrawlState → CrawlState
  | 0, st => st
  | fuel + 1, st =>
    if st.urls_to_visit ≠ [] ∧ st.pages_data.length < cfg.max_pages then
      crawl_loop cfg web uj base_url fuel (crawl_round cfg web uj base_url st)
    else st

/-- The initial crawl state (crawler.py lines 89-93): everything empty,
the frontier holding the seed at depth 0. -/
def init_state (start_url : String) : CrawlState :=
  { visited_urls := []
    pages_data := []
    error_urls := []
    urls_to_visit := [⟨start_url, 0⟩]
    site_structure := []
    fetched_log := [] }

/-- The scheduler state reached from the seed after at most `fuel`
rounds (the state from which `crawl` assembles its `CrawlResult`). -/
def crawl_state (cfg : Config) (web : String → FetchOutcome)
    (uj : String → String → String) (fuel : Nat) (start_url : String) :
    CrawlState :=
  crawl_loop cfg web uj (url_base start_url) fuel (init_state start_url)

/-- Translation of `_calculate_avg_page_size` (crawler.py lines 395-401), with exact
rationals in place of Python floats. -/
def calculate_avg_page_size (pages_data : List (String × PageData)) : ℚ :=
  if pages_data = [] then 0
  else
    (pages_data.map (fun p => (p.2.html.length : ℚ) / 1024)).sum /
      (pages_data.length : ℚ)

/-- Translation of `_calculate_avg_load_time` (crawler.py lines 403-409). -/
def calculate_avg_load_time (pages_data : List (String × PageData)) : ℚ :=
  if pages_data = [] then 0
  else
    (pages_data.map (fun p => (p.2.load_time_ms : ℚ))).sum /
      (pages_data.length : ℚ)

/-- One step of `_count_status_codes`:
`status_counts[code] = status_counts.get(code, 0) + 1` on an
insertion-ordered association list. -/
def bump : List (Nat × Nat) → Nat → List (Nat × Nat)
  | [], code => [(code, 1)]
  | (k, v) :: rest, code =>
    if k = code then (k, v + 1) :: rest else (k, v) :: bump rest code

/-- The loop of `_count_status_codes`, threading the accumulator dict. -/
def count_status_codes_go :
    List (String × PageData) → List (Nat × Nat) → List (Nat × Nat)
  | [], acc => acc
  | p :: rest, acc => count_status_codes_go rest (bump acc p.2.status_code)

/-- Translation of `_count_status_codes` (crawler.py lines 411-418). -/
def count_status_codes (pages_data : List (String × PageData)) :
    List (Nat × Nat) :=
  count_status_codes_go pages_data []

/-- Python `dict.get(code, 0)` on the histogram association list. -/
def status_lookup (m : List (Nat × Nat)) (code : Nat) : Nat :=
  ((m.find? (fun kv => kv.1 == code)).map Prod.snd).getD 0

/-- The `crawl_stats` dict (crawler.py lines 161-168).
`crawl_time_seconds` is genuine wall-clock time of the whole run and is
not modelled. -/
structure CrawlStats where
  total_pages_crawled : Nat
  total_errors : Nat
  average_page_size_kb : ℚ
  average_load_time_ms : ℚ
  pages_by_status_code : List (Nat × Nat)
deriving Repr, DecidableEq

/-- The `CrawlResult` dataclass (crawler.py lines 32-38). -/
structure CrawlResult where
  base_url : String
  pages : List (String × PageData)
  errors : List (String × String)
  site_structure : List (String × List String)
  crawl_stats : CrawlStats
deriving Repr, DecidableEq

/-- Translation of `WebsiteCrawler.crawl` (crawler.py lines 72-176): run the round loop
from the seed and assemble the `CrawlResult` with its statistics. -/
def crawl (cfg : Config) (web : String → FetchOutcome)
    (uj : String → String → String) (fuel : Nat) (start_url : String) :
    CrawlResult :=
  let final := crawl_state cfg web uj fuel start_url
  { base_url := url_base start_url
    pages := final.pages_data
    errors := final.error_urls
    site_structure := final.site_structure
    crawl_stats :=
      { total_pages_crawled := final.pages_data.length
        total_errors := final.error_urls.length
        average_page_size_kb := calculate_avg_page_size final.pages_data
        average_load_time_ms := calculate_avg_load_time final.pages_data
        pages_by_status_code := count_status_codes final.pages_data } }

/-- The configuration exactly as `WebsiteCrawler.__init__` stores it
(crawler.py lines 45-70): plain Python ints, stored without any
validation. -/
structure PyConfig where
  max_pages : Int
  max_depth : Int
  max_concurrent_requests : Int
deriving Repr, DecidableEq

/-- Clamping a Python-int configuration to the `Nat` limits the engine
core runs on.  This is behaviour-preserving: `int_guard_iff_clamped`
below proves that the page-budget guard `len(pages_data) < max_pages`
(line 107) and the depth guard `current_depth < max_depth` (line 150),
whose left-hand sides are non-negative counts, decide identically on
the int and on its clamp. -/
def PyConfig.clamp (cfg : PyConfig) : Config :=
  ⟨cfg.max_pages.toNat, cfg.max_depth.toNat,
   cfg.max_concurrent_requests.toNat⟩

/-- What calling the `crawl` coroutine delivers to the Python caller:
an exception propagating out, no result at all (the coroutine never
terminates), or a returned `CrawlResult`. -/
inductive PyRunOutcome where
  | raises (msg : String)
  | diverges
  | returns (r : CrawlResult)
deriving Repr, DecidableEq

/-- `WebsiteCrawler.crawl` as entered with the unvalidated Python-int
configuration.  `asyncio.Semaphore(self.max_concurrent_requests)` at
line 96 raises `ValueError("Semaphore initial value must be >= 0")`
for a negative value — the only raise on the configuration path, and
not an engine-defined error class.  With `max_concurrent_requests = 0`
and a positive page budget, `urls_to_visit[:0]` is empty and
`urls_to_visit[0:]` leaves the frontier unchanged, so the `while` loop
at line 107 spins forever and nothing is ever returned
(`crawl_loop_mcr_zero` below proves the round loop makes no progress
in this case).  Otherwise the run is the engine core on the clamped
configuration. -/
def crawl_py (cfg : PyConfig) (web : String → FetchOutcome)
    (uj : String → String → String) (fuel : Nat) (start_url : String) :
    PyRunOutcome :=
  if cfg.max_concurrent_requests < 0 then
    .raises "ValueError: Semaphore initial value must be >= 0"
  else if cfg.max_concurrent_requests = 0 ∧ 0 < cfg.max_pages then
    .diverges
  else
    .returns (crawl cfg.clamp web uj fuel start_url)

/-! ### Specification-side vocabulary

Definitions following the spec's words, used to state the claims about
the code-side functions above. -/

/-- A raw href survives the skip test of `_extract_links`: after
trimming it is non-empty and does not start with a
javascript/mailto/tel prefix. -/
def href_kept (raw : String) : Bool :=
  ¬ (strTrim raw = "" ∨
    skip_href_prefixes.any (fun p => strStartsWith (strTrim raw) p))

/-- The resolved candidate link URLs of a page, in document order, one
per kept href. -/
def link_candidates (uj : String → String → String) (current_url : String)
    (hrefs : List String) : List String :=
  (hrefs.filter href_kept).map (resolve_href uj current_url)

/-- First-seen-order de-duplication, continuing an accumulator. -/
def dedup_first_seen_from (acc : List String) : List String → List String
  | [] => acc
  | x :: rest =>
    dedup_first_seen_from (if x ∈ acc then acc else acc ++ [x]) rest

/-- De-duplication by exact string equality preserving first-seen
order. -/
def dedup_first_seen (l : List String) : List String :=
  dedup_first_seen_from [] l

/-- Arithmetic mean of a list of rationals, 0 for the empty list. -/
def mean_q (l : List ℚ) : ℚ :=
  if l = [] then 0 else l.sum / (l.length : ℚ)

/-- The per-URL failure classification of the Fetch Worker: the `error`
component of the tuple `_process_url` returns for `url` (`none` on
success).  The depth argument of `_process_url` does not influence its
result, so it is fixed to 0 here. -/
def fetch_error (web : String → FetchOutcome)
    (uj : String → String → String) (base_url url : String) :
    Option String :=
  (process_url web uj url 0 base_url).2.2.2

/-! ### Concrete inputs for counterexamples and witnesses -/

/-- A small parsed document with the given anchors and raw html. -/
def mkDoc (anchors : List Anchor) (html : String) : Doc :=
  { html := html, title_tag := some "T", content := "hello world",
    meta_description := none, meta_keywords := none, h1s := [], h2s := [],
    anchors := anchors, imgs := [], ld_json := [] }

/-- The crawler defaults (`max_pages=100`, `max_depth=3`,
`max_concurrent_requests=10`). -/
def cfgDefault : Config := ⟨100, 3, 10⟩

/-- The crawler defaults as the Python ints `__init__` stores. -/
def pyCfgDefault : PyConfig := ⟨100, 3, 10⟩

/-- A web where every fetch raises. -/
def webEmpty : String → FetchOutcome := fun _ => .exn "err"

/-- A site whose home page links to three further pages, all HTML 200. -/
def webC1 : String → FetchOutcome := fun u =>
  if u = "https://example.com" then
    .response "text/html" 200 10 20
      (mkDoc [⟨"/a", false⟩, ⟨"/b", false⟩, ⟨"/c", false⟩] "hh")
  else .response "text/html" 200 10 20 (mkDoc [] "h")

/-- Config with `maxPages = 2` and `maxConcurrentRequests = 3`. -/
def cfgC1 : Config := ⟨2, 3, 3⟩

/-- A page with a fragment-only anchor and an anchor inside a
`nav`-like decomposed subtree. -/
def webC4 : String → FetchOutcome := fun _ =>
  .response "text/html" 200 1 2
    (mkDoc [⟨"#top", false⟩, ⟨"/nav-link", true⟩] "h")

/-- A page with one internal and one external link. -/
def webC4w : String → FetchOutcome := fun _ =>
  .response "text/html" 200 1 2
    (mkDoc [⟨"/a", false⟩, ⟨"https://other.com/y", false⟩] "h")

/-- The page record `webC4w` yields for the seed of `example.com`. -/
def pdC4 : PageData :=
  { url := "https://example.com", title := "T", content := "hello world",
    html := "h", meta_description := none, meta_keywords := none,
    h1s := [], h2s := [], internal_links := ["https://example.com/a"],
    external_links := ["https://other.com/y"], images := [],
    status_code := 200, load_time_ms := 1, word_count := 2,
    schema_org := [] }

/-- Every fetch raises with message `"boom"`. -/
def webC5 : String → FetchOutcome := fun _ => .exn "boom"

/-- Every fetch raises an exception whose `str(e)` is empty, as
`asyncio.TimeoutError` does. -/
def webC7 : String → FetchOutcome := fun _ => .exn ""

/-- A home page linking to one page that answers HTTP 500. -/
def webC7w : String → FetchOutcome := fun u =>
  if u = "https://example.com" then
    .response "text/html" 200 10 20 (mkDoc [⟨"/broken", false⟩] "hh")
  else .response "text/html" 500 10 20 (mkDoc [] "h")

/-- A response whose headers arrive 100 ms after the request starts and
whose body is fully read 250 ms after the request starts. -/
def webC8 : String → FetchOutcome := fun _ =>
  .response "text/html" 200 100 250 (mkDoc [] "h")

/-- The page record `webC8` yields. -/
def pdC8 : PageData :=
  { url := "https://example.com", title := "T", content := "hello world",
    html := "h", meta_description := none, meta_keywords := none,
    h1s := [], h2s := [], internal_links := [], external_links := [],
    images := [], status_code := 200, load_time_ms := 100,
    word_count := 2, schema_org := [] }

/-! ### Link-extraction lemmas -/

theorem mem_dedup_first_seen_from (x : String) :
    ∀ (l acc : List String),
      x ∈ dedup_first_seen_from acc l ↔ x ∈ acc ∨ x ∈ l := by
  intro l
  induction l with
  | nil => intro acc; simp [dedup_first_seen_from]
  | cons y rest ih =>
    intro acc
    by_cases hy : y ∈ acc
    · rw [dedup_first_seen_from, if_pos hy, ih]
      simp only [List.mem_cons]
      constructor
      · tauto
      · rintro (h | rfl | h) <;> tauto
    · rw [dedup_first_seen_from, if_neg hy, ih]
      simp only [List.mem_append, List.mem_cons, List.mem_singleton]
      tauto

theorem mem_dedup_first_seen (x : String) (l : List String) :
    x ∈ dedup_first_seen l ↔ x ∈ l := by
  rw [dedup_first_seen, mem_dedup_first_seen_from]
  simp

theorem href_kept_false_iff (raw : String) :
    href_kept raw = false ↔
      (strTrim raw = "" ∨
        skip_href_prefixes.any
          (fun p => strStartsWith (strTrim raw) p) = true) := by
  simp [href_kept]
  tauto

theorem extract_links_go_eq (uj : String → String → String)
    (base_url current_url : String) :
    ∀ (hrefs internal external : List String),
      extract_links_go uj base_url current_url hrefs (internal, external) =
        (dedup_first_seen_from internal
          ((link_candidates uj current_url hrefs).filter
            (fun h => strStartsWith h base_url)),
         dedup_first_seen_from external
          ((link_candidates uj current_url hrefs).filter
            (fun h => ! strStartsWith h base_url))) := by
  intro hrefs
  induction hrefs with
  | nil =>
    intro internal external
    simp [extract_links_go, link_candidates, dedup_first_seen_from]
  | cons raw rest ih =>
    intro internal external
    simp only [extract_links_go]
    by_cases g : strTrim raw = "" ∨
        skip_href_prefixes.any
          (fun p => strStartsWith (strTrim raw) p) = true
    · have hk : href_kept raw = false := (href_kept_false_iff raw).mpr g
      rw [if_pos g, ih]
      simp [link_candidates, List.filter_cons, hk]
    · have hk : href_kept raw = true := by
        cases h : href_kept raw
        · exact absurd ((href_kept_false_iff raw).mp h) g
        · rfl
      have hcand : link_candidates uj current_url (raw :: rest) =
          resolve_href uj current_url raw ::
            link_candidates uj current_url rest := by
        simp [link_candidates, List.filter_cons, hk]
      rw [if_neg g]
      cases hb : strStartsWith (resolve_href uj current_url raw) base_url with
      | true =>
        rw [if_pos rfl]
        by_cases hm : resolve_href uj current_url raw ∈ internal
        · rw [if_pos hm, ih, hcand]
          simp [List.filter_cons, hb, dedup_first_seen_from, hm]
        · rw [if_neg hm, ih, hcand]
          simp [List.filter_cons, hb, dedup_first_seen_from, hm]
      | false =>
        rw [if_neg (by simp [hb])]
        by_cases hm : resolve_href uj current_url raw ∈ external
        · rw [if_pos hm, ih, hcand]
          simp [List.filter_cons, hb, dedup_first_seen_from, hm]
        · rw [if_neg hm, ih, hcand]
          simp [List.filter_cons, hb, dedup_first_seen_from, hm]

theorem extract_links_eq (uj : String → String → String)
    (hrefs : List String) (base_url current_url : String) :
    extract_links uj hrefs base_url current_url =
      (dedup_first_seen
        ((link_candidates uj current_url hrefs).filter
          (fun h => strStartsWith h base_url)),
       dedup_first_seen
        ((link_candidates uj current_url hrefs).filter
          (fun h => ! strStartsWith h base_url))) := by
  rw [extract_links, extract_links_go_eq]
  rfl

/-! ### Fetch-worker lemmas -/

theorem process_url_depth_irrel (web : String → FetchOutcome)
    (uj : String → String → String) (u : String) (d d' : Nat) (b : String) :
    process_url web uj u d b = process_url web uj u d' b := rfl

theorem process_url_spec (web : String → FetchOutcome)
    (uj : String → String → String) (u : String) (d : Nat) (b : String) :
    (∃ msg, process_url web uj u d b = (u, none, [], some msg)) ∨
    (∃ pd : PageData,
      process_url web uj u d b = (u, some pd, pd.internal_links, none)) := by
  cases hw : web u with
  | exn msg =>
    exact Or.inl ⟨msg, by simp only [process_url, hw]⟩
  | response ct status hm bm doc =>
    by_cases h1 : str_in "text/html" (strToLower ct) = true
    · by_cases h2 : 400 ≤ status
      · refine Or.inl ⟨"HTTP status " ++ toString status, ?_⟩
        simp only [process_url, hw]
        rw [if_neg (not_not_intro h1), if_pos h2]
      · have key : process_url web uj u d b =
            (u,
             some
               { url := u, title := (extract_title doc),
                 content := doc.content, html := doc.html,
                 meta_description := (extract_meta_description doc),
                 meta_keywords := (extract_meta_keywords doc),
                 h1s := (extract_headings doc.h1s),
                 h2s := (extract_headings doc.h2s),
                 internal_links := (extract_links uj (live_hrefs doc) b u).1,
                 external_links := (extract_links uj (live_hrefs doc) b u).2,
                 images := (extract_images uj b doc.imgs),
                 status_code := status, load_time_ms := hm,
                 word_count := (count_words doc.content),
                 schema_org := (extract_schema_org doc.ld_json) },
             (extract_links uj (live_hrefs doc) b u).1, none) := by
          simp only [process_url, hw]
          rw [if_neg (not_not_intro h1), if_neg h2]
        exact Or.inr ⟨_, key⟩
    · refine Or.inl ⟨"Not HTML content: " ++ ct, ?_⟩
      simp only [process_url, hw]
      rw [if_pos h1]

theorem process_url_fst (web : String → FetchOutcome)
    (uj : String → String → String) (u : String) (d : Nat) (b : String) :
    (process_url web uj u d b).1 = u := by
  rcases process_url_spec web uj u d b with ⟨msg, h⟩ | ⟨pd, h⟩ <;> rw [h]

/-! ### Result-routing lemmas -/

theorem handle_result_err (cfg : Config) (b : String) (batch : List Entry)
    (visited : List String) (s : CrawlState) (u msg : String)
    (h : msg ≠ "") :
    handle_result cfg b batch visited s (u, none, [], some msg) =
      { s with error_urls := s.error_urls ++ [(u, msg)] } := by
  simp [handle_result, str_truthy, h]

theorem handle_result_err_empty (cfg : Config) (b : String)
    (batch : List Entry) (visited : List String) (s : CrawlState)
    (u : String) :
    handle_result cfg b batch visited s (u, none, [], some "") = s := by
  simp [handle_result, str_truthy]

theorem handle_result_page (cfg : Config) (b : String) (batch : List Entry)
    (visited : List String) (s : CrawlState) (u : String) (pd : PageData)
    (links : List String) :
    handle_result cfg b batch visited s (u, some pd, links, none) =
      { s with
        pages_data := s.pages_data ++ [(u, pd)]
        site_structure := s.site_structure ++
          [(u, pd.internal_links.filter (fun l => strStartsWith l b))]
        urls_to_visit :=
          add_new_urls cfg b visited s.urls_to_visit (depth_of batch u)
            links } := by
  simp [handle_result, str_truthy]

/-! ### Frontier-growth lemmas -/

theorem enqueue_links_mem (b : String) (visited : List String) (d' : Nat) :
    ∀ (links : List String) (frontier : List Entry) (e : Entry),
      e ∈ enqueue_links b visited d' frontier links →
      e ∈ frontier ∨
        (e.depth = d' ∧ e.url ∉ visited ∧ should_visit e.url b = true) := by
  intro links
  induction links with
  | nil => intro fr e h; exact Or.inl h
  | cons nu rest ih =>
    intro fr e h
    rw [enqueue_links] at h
    by_cases c : nu ∉ visited ∧ nu ∉ fr.map Entry.url ∧
        should_visit nu b = true
    · rw [if_pos c] at h
      rcases ih _ _ h with h' | h'
      · rcases List.mem_append.mp h' with h'' | h''
        · exact Or.inl h''
        · rcases List.mem_singleton.mp h'' with rfl
          exact Or.inr ⟨rfl, c.1, c.2.2⟩
      · exact Or.inr h'
    · rw [if_neg c] at h
      exact ih _ _ h

theorem enqueue_links_nodup (b : String) (visited : List String)
    (d' : Nat) :
    ∀ (links : List String) (frontier : List Entry),
      (frontier.map Entry.url).Nodup →
      ((enqueue_links b visited d' frontier links).map Entry.url).Nodup := by
  intro links
  induction links with
  | nil => intro fr h; exact h
  | cons nu rest ih =>
    intro fr h
    rw [enqueue_links]
    by_cases c : nu ∉ visited ∧ nu ∉ fr.map Entry.url ∧
        should_visit nu b = true
    · rw [if_pos c]
      refine ih _ ?_
      simp only [List.map_append, List.map_cons, List.map_nil]
      rw [List.nodup_append]
      exact ⟨h, List.nodup_singleton _, by
        intro a ha hb
        rcases List.mem_singleton.mp hb with rfl
        exact c.2.1 ha⟩
    · rw [if_neg c]
      exact ih _ h

theorem add_new_urls_stop (cfg : Config) (b : String) (visited : List String)
    (frontier : List Entry) (d : Nat) (links : List String)
    (h : cfg.max_depth ≤ d) :
    add_new_urls cfg b visited frontier d links = frontier := by
  rw [add_new_urls, if_neg (by omega)]

theorem add_new_urls_mem (cfg : Config) (b : String) (visited : List String)
    (frontier : List Entry) (d : Nat) (links : List String) (e : Entry)
    (h : e ∈ add_new_urls cfg b visited frontier d links) :
    e ∈ frontier ∨
      (e.depth = d + 1 ∧ d < cfg.max_depth ∧ e.url ∉ visited ∧
        should_visit e.url b = true) := by
  rw [add_new_urls] at h
  by_cases hd : d < cfg.max_depth
  · rw [if_pos hd] at h
    rcases enqueue_links_mem b visited (d + 1) links frontier e h with h' | h'
    · exact Or.inl h'
    · exact Or.inr ⟨h'.1, hd, h'.2⟩
  · rw [if_neg hd] at h
    exact Or.inl h

theorem add_new_urls_nodup (cfg : Config) (b : String)
    (visited : List String) (frontier : List Entry) (d : Nat)
    (links : List String) (h : (frontier.map Entry.url).Nodup) :
    ((add_new_urls cfg b visited frontier d links).map Entry.url).Nodup := by
  rw [add_new_urls]
  by_cases hd : d < cfg.max_depth
  · rw [if_pos hd]
    exact enqueue_links_nodup b visited (d + 1) links frontier h
  · rw [if_neg hd]
    exact h

/-! ### Dispatch lemmas -/

theorem dispatch_eq (b : String) :
    ∀ (batch : List Entry) (v : List String) (ts : List Entry),
      (batch.map Entry.url).Nodup →
      (∀ e ∈ batch, e.url ∉ v) →
      dispatch b batch (v, ts) =
        (v ++ (batch.filter (fun e => should_visit e.url b)).map Entry.url,
         ts ++ batch.filter (fun e => should_visit e.url b)) := by
  intro batch
  induction batch with
  | nil => intro v ts _ _; simp [dispatch]
  | cons e rest ih =>
    intro v ts hnd hnv
    have he : e.url ∉ v := hnv e (List.mem_cons_self _ _)
    have hnd' : (rest.map Entry.url).Nodup := (List.nodup_cons.mp hnd).2
    have heu : e.url ∉ rest.map Entry.url := (List.nodup_cons.mp hnd).1
    rw [dispatch]
    by_cases hsv : should_visit e.url b = true
    · rw [if_pos ⟨he, hsv⟩, ih _ _ hnd' ?fresh]
      case fresh =>
        intro x hx
        simp only [List.mem_append, List.mem_singleton, not_or]
        refine ⟨fun hv => hnv x (List.mem_cons_of_mem _ hx) hv, ?_⟩
        intro hxe
        exact heu (hxe ▸ List.mem_map_of_mem Entry.url hx)
      simp [List.filter_cons, hsv]
    · rw [if_neg (fun c => hsv c.2), ih _ _ hnd'
        (fun x hx => hnv x (List.mem_cons_of_mem _ hx))]
      simp [List.filter_cons, hsv]

/-! ### Generic list helpers -/

theorem nodup_snoc {α : Type} {l : List α} {u : α} (h : l.Nodup)
    (hu : u ∉ l) : (l ++ [u]).Nodup := by
  rw [List.nodup_append]
  exact ⟨h, List.nodup_singleton u, by
    intro a ha hb
    rcases List.mem_singleton.mp hb with rfl
    exact hu ha⟩

theorem nodup_append_snoc_right {α : Type} {A B : List α} {u : α}
    (h : (A ++ B).Nodup) (hu : u ∉ A ++ B) : (A ++ (B ++ [u])).Nodup := by
  rw [← List.append_assoc]
  exact nodup_snoc h hu

theorem nodup_append_snoc_left {α : Type} {A B : List α} {u : α}
    (h : (A ++ B).Nodup) (hu : u ∉ A ++ B) : ((A ++ [u]) ++ B).Nodup := by
  rw [List.nodup_append] at h ⊢
  rcases h with ⟨hA, hB, hAB⟩
  rw [List.mem_append] at hu
  refine ⟨nodup_snoc hA (fun hc => hu (Or.inl hc)), hB, ?_⟩
  intro a ha hb
  rcases List.mem_append.mp ha with ha' | ha'
  · exact hAB ha' hb
  · rcases List.mem_singleton.mp ha' with rfl
    exact hu (Or.inr hb)

theorem depth_of_le (batch : List Entry) (u : String) (D : Nat)
    (h : ∀ e ∈ batch, e.depth ≤ D) : depth_of batch u ≤ D := by
  rw [depth_of]
  cases hf : batch.find? (fun x => x.url == u) with
  | none => exact Nat.zero_le D
  | some e => exact h e (List.mem_of_find?_eq_some hf)

/-! ### The per-round invariant

`MidInv` holds in the middle of the result-processing loop of one round:
`batch` is the popped batch, `visited` the visited-set after the round's
dispatch phase, `ts` the dispatched entries whose results are still to
be routed, and `s` the current state.  Its fields are exactly the
invariants the claims about whole crawl runs need. -/

structure MidInv (cfg : Config) (web : String → FetchOutcome)
    (uj : String → String → String) (base : String) (batch : List Entry)
    (visited : List String) (ts : List Entry) (s : CrawlState) : Prop where
  front_nodup : (s.urls_to_visit.map Entry.url).Nodup
  front_unvisited : ∀ e ∈ s.urls_to_visit, e.url ∉ visited
  front_depth : ∀ e ∈ s.urls_to_visit, e.depth ≤ cfg.max_depth
  batch_depth : ∀ e ∈ batch, e.depth ≤ cfg.max_depth
  keys_nodup :
    (s.pages_data.map Prod.fst ++ s.error_urls.map Prod.fst).Nodup
  keys_fetched :
    ∀ u ∈ s.pages_data.map Prod.fst ++ s.error_urls.map Prod.fst,
      u ∈ s.fetched_log.map Prod.fst
  ts_fresh :
    ∀ e ∈ ts,
      e.url ∉ s.pages_data.map Prod.fst ++ s.error_urls.map Prod.fst
  ts_nodup : (ts.map Entry.url).Nodup
  ts_fetched : ∀ e ∈ ts, e.url ∈ s.fetched_log.map Prod.fst
  visited_eq : s.visited_urls = visited
  fetched_nodup : (s.fetched_log.map Prod.fst).Nodup
  fetched_visited : ∀ p ∈ s.fetched_log, p.1 ∈ visited
  fetched_depth : ∀ p ∈ s.fetched_log, p.2 ≤ cfg.max_depth
  err_rec :
    ∀ p ∈ s.fetched_log,
      (∀ msg, fetch_error web uj base p.1 = some msg → msg ≠ "" →
        (p.1, msg) ∈ s.error_urls) ∨
      p.1 ∈ ts.map Entry.url

theorem midinv_step (cfg : Config) (web : String → FetchOutcome)
    (uj : String → String → String) (base : String) (batch : List Entry)
    (visited : List String) (e : Entry) (ts : List Entry) (s : CrawlState)
    (h : MidInv cfg web uj base batch visited (e :: ts) s) :
    MidInv cfg web uj base batch visited ts
      (handle_result cfg base batch visited s
        (process_url web uj e.url e.depth base)) := by
  have hts_nodup := List.nodup_cons.mp h.ts_nodup
  rcases process_url_spec web uj e.url e.depth base with ⟨msg, hp⟩ | ⟨pd, hp⟩
  · have herr : fetch_error web uj base e.url = some msg := by
      rw [fetch_error, process_url_depth_irrel web uj e.url 0 e.depth, hp]
    by_cases hmsg : msg = ""
    · subst hmsg
      rw [hp, handle_result_err_empty]
      refine ⟨h.front_nodup, h.front_unvisited, h.front_depth, h.batch_depth,
        h.keys_nodup, h.keys_fetched,
        fun x hx => h.ts_fresh x (List.mem_cons_of_mem _ hx), hts_nodup.2,
        fun x hx => h.ts_fetched x (List.mem_cons_of_mem _ hx), h.visited_eq,
        h.fetched_nodup, h.fetched_visited, h.fetched_depth, ?_⟩
      intro p hpf
      rcases h.err_rec p hpf with hrec | hmem
      · exact Or.inl hrec
      · rw [List.map_cons, List.mem_cons] at hmem
        rcases hmem with heq | hmem
        · refine Or.inl ?_
          intro msg' hm' hne'
          rw [heq, herr] at hm'
          exact absurd (Option.some.inj hm').symm hne'
        · exact Or.inr hmem
    · rw [hp, handle_result_err cfg base batch visited s e.url msg hmsg]
      have hfresh := h.ts_fresh e (List.mem_cons_self _ _)
      refine ⟨h.front_nodup, h.front_unvisited, h.front_depth, h.batch_depth,
        ?_, ?_, ?_, hts_nodup.2,
        fun x hx => h.ts_fetched x (List.mem_cons_of_mem _ hx), h.visited_eq,
        h.fetched_nodup, h.fetched_visited, h.fetched_depth, ?_⟩
      · show (s.pages_data.map Prod.fst ++
          ((s.error_urls ++ [(e.url, msg)]).map Prod.fst)).Nodup
        rw [List.map_append]
        exact nodup_append_snoc_right h.keys_nodup hfresh
      · intro u hu
        rw [List.map_append] at hu
        rcases List.mem_append.mp hu with hu' | hu'
        · exact h.keys_fetched u (List.mem_append_left _ hu')
        · rcases List.mem_append.mp hu' with hu'' | hu''
          · exact h.keys_fetched u (List.mem_append_right _ hu'')
          · rcases List.mem_singleton.mp hu'' with rfl
            exact h.ts_fetched e (List.mem_cons_self _ _)
      · intro x hx
        have hold := h.ts_fresh x (List.mem_cons_of_mem _ hx)
        show x.url ∉ s.pages_data.map Prod.fst ++
          ((s.error_urls ++ [(e.url, msg)]).map Prod.fst)
        rw [List.map_append]
        intro hc
        rcases List.mem_append.mp hc with hc' | hc'
        · exact hold (List.mem_append_left _ hc')
        · rcases List.mem_append.mp hc' with hc'' | hc''
          · exact hold (List.mem_append_right _ hc'')
          · have hxe : x.url = e.url := List.mem_singleton.mp hc''
            exact hts_nodup.1 (hxe ▸ List.mem_map_of_mem Entry.url hx)
      · intro p hpf
        rcases h.err_rec p hpf with hrec | hmem
        · refine Or.inl fun msg' hm' hne' =>
            List.mem_append_left _ (hrec msg' hm' hne')
        · rw [List.map_cons, List.mem_cons] at hmem
          rcases hmem with heq | hmem
          · refine Or.inl ?_
            intro msg' hm' hne'
            rw [heq, herr] at hm'
            rcases Option.some.inj hm' with rfl
            rw [heq]
            exact List.mem_append_right _ (List.mem_singleton.mpr rfl)
          · exact Or.inr hmem
  · have herr : fetch_error web uj base e.url = none := by
      rw [fetch_error, process_url_depth_irrel web uj e.url 0 e.depth, hp]
    rw [hp, handle_result_page]
    have hfresh := h.ts_fresh e (List.mem_cons_self _ _)
    refine ⟨?_, ?_, ?_, h.batch_depth, ?_, ?_, ?_, hts_nodup.2,
      fun x hx => h.ts_fetched x (List.mem_cons_of_mem _ hx), h.visited_eq,
      h.fetched_nodup, h.fetched_visited, h.fetched_depth, ?_⟩
    · exact add_new_urls_nodup cfg base visited s.urls_to_visit
        (depth_of batch e.url) pd.internal_links h.front_nodup
    · intro x hx
      rcases add_new_urls_mem cfg base visited s.urls_to_visit
          (depth_of batch e.url) pd.internal_links x hx with hx' | hx'
      · exact h.front_unvisited x hx'
      · exact hx'.2.2.1
    · intro x hx
      rcases add_new_urls_mem cfg base visited s.urls_to_visit
          (depth_of batch e.url) pd.internal_links x hx with hx' | hx'
      · exact h.front_depth x hx'
      · omega
    · show ((s.pages_data ++ [(e.url, pd)]).map Prod.fst ++
        s.error_urls.map Prod.fst).Nodup
      rw [List.map_append]
      exact nodup_append_snoc_left h.keys_nodup hfresh
    · intro u hu
      rw [List.map_append] at hu
      rcases List.mem_append.mp hu with hu' | hu'
      · rcases List.mem_append.mp hu' with hu'' | hu''
        · exact h.keys_fetched u (List.mem_append_left _ hu'')
        · rcases List.mem_singleton.mp hu'' with rfl
          exact h.ts_fetched e (List.mem_cons_self _ _)
      · exact h.keys_fetched u (List.mem_append_right _ hu')
    · intro x hx
      have hold := h.ts_fresh x (List.mem_cons_of_mem _ hx)
      show x.url ∉ ((s.pages_data ++ [(e.url, pd)]).map Prod.fst) ++
        s.error_urls.map Prod.fst
      rw [List.map_append]
      intro hc
      rcases List.mem_append.mp hc with hc' | hc'
      · rcases List.mem_append.mp hc' with hc'' | hc''
        · exact hold (List.mem_append_left _ hc'')
        · have hxe : x.url = e.url := List.mem_singleton.mp hc''
          exact hts_nodup.1 (hxe ▸ List.mem_map_of_mem Entry.url hx)
      · exact hold (List.mem_append_right _ hc')
    · intro p hpf
      rcases h.err_rec p hpf with hrec | hmem
      · exact Or.inl hrec
      · rw [List.map_cons, List.mem_cons] at hmem
        rcases hmem with heq | hmem
        · refine Or.inl ?_
          intro msg' hm' hne'
          rw [heq, herr] at hm'
          exact absurd hm' (by simp)
        · exact Or.inr hmem

theorem midinv_results (cfg : Config) (web : String → FetchOutcome)
    (uj : String → String → String) (base : String) (batch : List Entry)
    (visited : List String) :
    ∀ (ts : List Entry) (s : CrawlState),
      MidInv cfg web uj base batch visited ts s →
      MidInv cfg web uj base batch visited []
        (process_results cfg web uj base batch visited ts s) := by
  intro ts
  induction ts with
  | nil => intro s h; rw [process_results]; exact h
  | cons e rest ih =>
    intro s h
    rw [process_results]
    exact ih _ (midinv_step cfg web uj base batch visited e rest s h)

/-- The crawl-run invariant, holding at every round boundary: the
frontier holds pairwise-distinct unvisited URLs at depths within the
depth limit; `pages_data` and `errors` have pairwise-distinct keys
drawn from the dispatched URLs; every dispatched URL is visited, was
dispatched only once, at an in-bound depth; and every dispatched URL
whose fetch classifies to a non-empty error message has that message
recorded in `error_urls`. -/
structure Inv (cfg : Config) (web : String → FetchOutcome)
    (uj : String → String → String) (base : String) (st : CrawlState) :
    Prop where
  front_nodup : (st.urls_to_visit.map Entry.url).Nodup
  front_unvisited : ∀ e ∈ st.urls_to_visit, e.url ∉ st.visited_urls
  front_depth : ∀ e ∈ st.urls_to_visit, e.depth ≤ cfg.max_depth
  keys_nodup :
    (st.pages_data.map Prod.fst ++ st.error_urls.map Prod.fst).Nodup
  keys_fetched :
    ∀ u ∈ st.pages_data.map Prod.fst ++ st.error_urls.map Prod.fst,
      u ∈ st.fetched_log.map Prod.fst
  fetched_nodup : (st.fetched_log.map Prod.fst).Nodup
  fetched_visited : ∀ p ∈ st.fetched_log, p.1 ∈ st.visited_urls
  fetched_depth : ∀ p ∈ st.fetched_log, p.2 ≤ cfg.max_depth
  err_rec :
    ∀ p ∈ st.fetched_log, ∀ msg,
      fetch_error web uj base p.1 = some msg → msg ≠ "" →
        (p.1, msg) ∈ st.error_urls

theorem crawl_round_eq (cfg : Config) (web : String → FetchOutcome)
    (uj : String → String → String) (base : String) (st : CrawlState)
    (v' : List String) (adm : List Entry)
    (hd : dispatch base (st.urls_to_visit.take cfg.max_concurrent_requests)
      (st.visited_urls, []) = (v', adm)) :
    crawl_round cfg web uj base st =
      process_results cfg web uj base
        (st.urls_to_visit.take cfg.max_concurrent_requests) v' adm
        { st with
          visited_urls := v'
          urls_to_visit := st.urls_to_visit.drop cfg.max_concurrent_requests
          fetched_log := st.fetched_log ++
            adm.map (fun e => (e.url, e.depth)) } := by
  rw [crawl_round, hd]

theorem inv_round (cfg : Config) (web : String → FetchOutcome)
    (uj : String → String → String) (base : String) (st : CrawlState)
    (h : Inv cfg web uj base st) :
    Inv cfg web uj base (crawl_round cfg web uj base st) := by
  set batch := st.urls_to_visit.take cfg.max_concurrent_requests with hbatch
  set rest := st.urls_to_visit.drop cfg.max_concurrent_requests with hrest
  have hbatch_sub : ∀ e ∈ batch, e ∈ st.urls_to_visit :=
    fun e he => List.take_subset _ _ he
  have hrest_sub : ∀ e ∈ rest, e ∈ st.urls_to_visit :=
    fun e he => List.drop_subset _ _ he
  have hsplit : batch.map Entry.url ++ rest.map Entry.url =
      st.urls_to_visit.map Entry.url := by
    rw [← List.map_append, List.take_append_drop]
  have hfront_nodup : (batch.map Entry.url ++ rest.map Entry.url).Nodup := by
    rw [hsplit]; exact h.front_nodup
  have hbatch_nodup : (batch.map Entry.url).Nodup :=
    (List.nodup_append.mp hfront_nodup).1
  have hrest_nodup : (rest.map Entry.url).Nodup :=
    (List.nodup_append.mp hfront_nodup).2.1
  have hdisjoint : ∀ u ∈ batch.map Entry.url, u ∉ rest.map Entry.url :=
    fun u hu => (List.nodup_append.mp hfront_nodup).2.2 hu
  have hbatch_unvisited : ∀ e ∈ batch, e.url ∉ st.visited_urls :=
    fun e he => h.front_unvisited e (hbatch_sub e he)
  set adm := batch.filter (fun e => should_visit e.url base) with hadm
  have hadm_sub : ∀ e ∈ adm, e ∈ batch :=
    fun e he => List.mem_of_mem_filter he
  have hadm_url_sub : ∀ u ∈ adm.map Entry.url, u ∈ batch.map Entry.url := by
    intro u hu
    rcases List.mem_map.mp hu with ⟨e, he, rfl⟩
    exact List.mem_map_of_mem _ (hadm_sub e he)
  have hadm_nodup : (adm.map Entry.url).Nodup :=
    List.Nodup.sublist ((List.filter_sublist _).map Entry.url) hbatch_nodup
  have hadm_unvisited : ∀ e ∈ adm, e.url ∉ st.visited_urls :=
    fun e he => hbatch_unvisited e (hadm_sub e he)
  have hd := dispatch_eq base batch st.visited_urls [] hbatch_nodup
    hbatch_unvisited
  rw [List.nil_append] at hd
  rw [crawl_round_eq cfg web uj base st _ _ hd]
  set v' := st.visited_urls ++ adm.map Entry.url with hv'
  set st1 : CrawlState :=
    { st with
      visited_urls := v'
      urls_to_visit := rest
      fetched_log := st.fetched_log ++
        adm.map (fun e => (e.url, e.depth)) } with hst1
  have hkeys_visited :
      ∀ u ∈ st.pages_data.map Prod.fst ++ st.error_urls.map Prod.fst,
        u ∈ st.visited_urls := by
    intro u hu
    rcases List.mem_map.mp (h.keys_fetched u hu) with ⟨p, hp, rfl⟩
    exact h.fetched_visited p hp
  have hfetched_urls :
      st1.fetched_log.map Prod.fst =
        st.fetched_log.map Prod.fst ++ adm.map Entry.url := by
    show (st.fetched_log ++ adm.map (fun e => (e.url, e.depth))).map
      Prod.fst = _
    rw [List.map_append, List.map_map]
    rfl
  have hmid : MidInv cfg web uj base batch v' adm st1 := by
    refine ⟨hrest_nodup, ?_, ?_, ?_, h.keys_nodup, ?_, ?_, hadm_nodup, ?_,
      rfl, ?_, ?_, ?_, ?_⟩
    · intro e he
      rw [hv', List.mem_append]
      push_neg
      exact ⟨h.front_unvisited e (hrest_sub e he),
        fun hc => hdisjoint e.url (hadm_url_sub _ hc)
          (List.mem_map_of_mem Entry.url he)⟩
    · exact fun e he => h.front_depth e (hrest_sub e he)
    · exact fun e he => h.front_depth e (hbatch_sub e he)
    · intro u hu
      rw [hfetched_urls]
      exact List.mem_append_left _ (h.keys_fetched u hu)
    · intro e he hc
      exact hadm_unvisited e he (hkeys_visited e.url hc)
    · intro e he
      rw [hfetched_urls]
      exact List.mem_append_right _ (List.mem_map_of_mem Entry.url he)
    · rw [hfetched_urls]
      rw [List.nodup_append]
      refine ⟨h.fetched_nodup, hadm_nodup, ?_⟩
      intro u hu hc
      rcases List.mem_map.mp hu with ⟨p, hp, rfl⟩
      rcases List.mem_map.mp hc with ⟨e, he, heq⟩
      exact hadm_unvisited e he (heq ▸ h.fetched_visited p hp)
    · intro p hp
      rcases List.mem_append.mp hp with hp' | hp'
      · exact List.mem_append_left _ (h.fetched_visited p hp')
      · rcases List.mem_map.mp hp' with ⟨e, he, rfl⟩
        exact List.mem_append_right _ (List.mem_map_of_mem Entry.url he)
    · intro p hp
      rcases List.mem_append.mp hp with hp' | hp'
      · exact h.fetched_depth p hp'
      · rcases List.mem_map.mp hp' with ⟨e, he, rfl⟩
        exact h.front_depth e (hbatch_sub e (hadm_sub e he))
    · intro p hp
      rcases List.mem_append.mp hp with hp' | hp'
      · exact Or.inl (h.err_rec p hp')
      · rcases List.mem_map.mp hp' with ⟨e, he, rfl⟩
        exact Or.inr (List.mem_map_of_mem Entry.url he)
  have hfinal := midinv_results cfg web uj base batch v' adm st1 hmid
  set final := process_results cfg web uj base batch v' adm st1 with hfin
  refine ⟨hfinal.front_nodup, ?_, hfinal.front_depth, hfinal.keys_nodup,
    hfinal.keys_fetched, hfinal.fetched_nodup, ?_, hfinal.fetched_depth, ?_⟩
  · intro e he
    rw [hfinal.visited_eq]
    exact hfinal.front_unvisited e he
  · intro p hp
    rw [hfinal.visited_eq]
    exact hfinal.fetched_visited p hp
  · intro p hp msg hm hne
    rcases hfinal.err_rec p hp with hrec | hmem
    · exact hrec msg hm hne
    · simp at hmem

theorem inv_loop (cfg : Config) (web : String → FetchOutcome)
    (uj : String → String → String) (base : String) :
    ∀ (fuel : Nat) (st : CrawlState), Inv cfg web uj base st →
      Inv cfg web uj base (crawl_loop cfg web uj base fuel st) := by
  intro fuel
  induction fuel with
  | zero => intro st h; rw [crawl_loop]; exact h
  | succ n ih =>
    intro st h
    rw [crawl_loop]
    by_cases hg : st.urls_to_visit ≠ [] ∧
        st.pages_data.length < cfg.max_pages
    · rw [if_pos hg]
      exact ih _ (inv_round cfg web uj base st h)
    · rw [if_neg hg]
      exact h

theorem inv_init (cfg : Config) (web : String → FetchOutcome)
    (uj : String → String → String) (base seed : String) :
    Inv cfg web uj base (init_state seed) := by
  refine ⟨?_, ?_, ?_, ?_, ?_, ?_, ?_, ?_, ?_⟩ <;> simp [init_state]

theorem inv_crawl_state (cfg : Config) (web : String → FetchOutcome)
    (uj : String → String → String) (fuel : Nat) (seed : String) :
    Inv cfg web uj (url_base seed) (crawl_state cfg web uj fuel seed) :=
  inv_loop cfg web uj (url_base seed) fuel (init_state seed)
    (inv_init cfg web uj (url_base seed) seed)

/-! ### Rejected-seed runs -/

/-- State shape of a run whose seed the admission filter rejects:
nothing is ever collected and the frontier never holds anything but the
seed entry. -/
def EmptyRunInv (seed : String) (st : CrawlState) : Prop :=
  st.pages_data = [] ∧ st.error_urls = [] ∧
    (st.urls_to_visit = [] ∨ st.urls_to_visit = [⟨seed, 0⟩])

theorem crawl_round_rejected (cfg : Config) (web : String → FetchOutcome)
    (uj : String → String → String) (base seed : String)
    (hsv : should_visit seed base = false) (st : CrawlState)
    (hst : EmptyRunInv seed st) :
    EmptyRunInv seed (crawl_round cfg web uj base st) := by
  rcases hst with ⟨hp, he, hf | hf⟩
  · have hd : dispatch base
        (st.urls_to_visit.take cfg.max_concurrent_requests)
        (st.visited_urls, []) = (st.visited_urls, []) := by
      rw [hf]
      simp [dispatch]
    rw [crawl_round_eq cfg web uj base st _ _ hd, process_results]
    exact ⟨hp, he, Or.inl (by simp [hf])⟩
  · cases hmc : cfg.max_concurrent_requests with
    | zero =>
      have hd : dispatch base
          (st.urls_to_visit.take cfg.max_concurrent_requests)
          (st.visited_urls, []) = (st.visited_urls, []) := by
        rw [hf, hmc]
        simp [dispatch]
      rw [crawl_round_eq cfg web uj base st _ _ hd, process_results]
      refine ⟨hp, he, Or.inr ?_⟩
      show st.urls_to_visit.drop cfg.max_concurrent_requests = _
      rw [hf, hmc]
      rfl
    | succ m =>
      have htake : st.urls_to_visit.take cfg.max_concurrent_requests =
          [⟨seed, 0⟩] := by
        rw [hf, hmc]
        simp
      have hdrop : st.urls_to_visit.drop cfg.max_concurrent_requests =
          ([] : List Entry) := by
        rw [hf, hmc]
        simp
      have hd : dispatch base
          (st.urls_to_visit.take cfg.max_concurrent_requests)
          (st.visited_urls, []) = (st.visited_urls, []) := by
        rw [htake, dispatch, if_neg (by
          rintro ⟨-, hc⟩
          rw [hsv] at hc
          exact Bool.false_ne_true hc), dispatch]
      rw [crawl_round_eq cfg web uj base st _ _ hd, process_results]
      refine ⟨hp, he, Or.inl ?_⟩
      show st.urls_to_visit.drop cfg.max_concurrent_requests = _
      rw [hdrop]

theorem crawl_loop_rejected (cfg : Config) (web : String → FetchOutcome)
    (uj : String → String → String) (base seed : String)
    (hsv : should_visit seed base = false) :
    ∀ (fuel : Nat) (st : CrawlState), EmptyRunInv seed st →
      EmptyRunInv seed (crawl_loop cfg web uj base fuel st) := by
  intro fuel
  induction fuel with
  | zero => intro st h; rw [crawl_loop]; exact h
  | succ n ih =>
    intro st h
    rw [crawl_loop]
    by_cases hg : st.urls_to_visit ≠ [] ∧
        st.pages_data.length < cfg.max_pages
    · rw [if_pos hg]
      exact ih _ (crawl_round_rejected cfg web uj base seed hsv st h)
    · rw [if_neg hg]
      exact h

theorem crawl_rejected_empty (cfg : Config) (web : String → FetchOutcome)
    (uj : String → String → String) (fuel : Nat) (seed : String)
    (hsv : should_visit seed (url_base seed) = false) :
    (crawl cfg web uj fuel seed).pages = [] ∧
      (crawl cfg web uj fuel seed).errors = [] := by
  have h := crawl_loop_rejected cfg web uj (url_base seed) seed hsv fuel
    (init_state seed) ⟨rfl, rfl, Or.inr rfl⟩
  exact ⟨h.1, h.2.1⟩

/-! ### The unvalidated Python-int entry -/

theorem int_guard_iff_clamped (n : Nat) (m : Int) :
    ((n : Int) < m) ↔ n < m.toNat :=
  Int.lt_toNat.symm

theorem crawl_round_mcr_zero (cfg : Config) (web : String → FetchOutcome)
    (uj : String → String → String) (base : String) (st : CrawlState)
    (hmc : cfg.max_concurrent_requests = 0) :
    crawl_round cfg web uj base st = st := by
  have hd : dispatch base
      (st.urls_to_visit.take cfg.max_concurrent_requests)
      (st.visited_urls, []) = (st.visited_urls, []) := by
    rw [hmc]
    simp [dispatch]
  rw [crawl_round_eq cfg web uj base st _ _ hd, process_results, hmc]
  cases st
  simp

theorem crawl_loop_mcr_zero (cfg : Config) (web : String → FetchOutcome)
    (uj : String → String → String) (base : String)
    (hmc : cfg.max_concurrent_requests = 0) :
    ∀ (fuel : Nat) (st : CrawlState),
      crawl_loop cfg web uj base fuel st = st := by
  intro fuel
  induction fuel with
  | zero => intro st; rw [crawl_loop]
  | succ n ih =>
    intro st
    rw [crawl_loop]
    by_cases hg : st.urls_to_visit ≠ [] ∧
        st.pages_data.length < cfg.max_pages
    · rw [if_pos hg, crawl_round_mcr_zero cfg web uj base st hmc, ih]
    · rw [if_neg hg]

/-! ### Statistics lemmas -/

theorem calculate_avg_page_size_eq (pages_data : List (String × PageData)) :
    calculate_avg_page_size pages_data =
      mean_q (pages_data.map (fun p => (p.2.html.length : ℚ) / 1024)) := by
  rw [calculate_avg_page_size, mean_q]
  by_cases h : pages_data = []
  · simp [h]
  · rw [if_neg h, if_neg (by simpa using h), List.length_map]

theorem calculate_avg_load_time_eq (pages_data : List (String × PageData)) :
    calculate_avg_load_time pages_data =
      mean_q (pages_data.map (fun p => (p.2.load_time_ms : ℚ))) := by
  rw [calculate_avg_load_time, mean_q]
  by_cases h : pages_data = []
  · simp [h]
  · rw [if_neg h, if_neg (by simpa using h), List.length_map]

theorem status_lookup_nil (c : Nat) : status_lookup [] c = 0 := rfl

theorem status_lookup_cons_self (k v : Nat) (m : List (Nat × Nat)) :
    status_lookup ((k, v) :: m) k = v := by
  rw [status_lookup, List.find?_cons_of_pos _ (by simp)]
  rfl

theorem status_lookup_cons_ne (k v c : Nat) (m : List (Nat × Nat))
    (h : k ≠ c) : status_lookup ((k, v) :: m) c = status_lookup m c := by
  rw [status_lookup, List.find?_cons_of_neg _ (by simp [h]), status_lookup]

theorem status_lookup_bump_self (c : Nat) :
    ∀ m : List (Nat × Nat),
      status_lookup (bump m c) c = status_lookup m c + 1 := by
  intro m
  induction m with
  | nil =>
    rw [bump, status_lookup_nil, status_lookup_cons_self]
  | cons kv rest ih =>
    obtain ⟨k, v⟩ := kv
    rw [bump]
    by_cases hk : k = c
    · subst hk
      rw [if_pos rfl, status_lookup_cons_self, status_lookup_cons_self]
    · rw [if_neg hk, status_lookup_cons_ne k v c _ hk,
        status_lookup_cons_ne k v c rest hk, ih]

theorem status_lookup_bump_ne (c c' : Nat) (h : c ≠ c') :
    ∀ m : List (Nat × Nat),
      status_lookup (bump m c) c' = status_lookup m c' := by
  intro m
  induction m with
  | nil =>
    rw [bump, status_lookup_nil, status_lookup_cons_ne c 1 c' [] h,
      status_lookup_nil]
  | cons kv rest ih =>
    obtain ⟨k, v⟩ := kv
    rw [bump]
    by_cases hk : k = c
    · subst hk
      rw [if_pos rfl, status_lookup_cons_ne k (v + 1) c' rest h,
        status_lookup_cons_ne k v c' rest h]
    · by_cases hk' : k = c'
      · subst hk'
        rw [if_neg hk, status_lookup_cons_self, status_lookup_cons_self]
      · rw [if_neg hk, status_lookup_cons_ne k v c' _ hk',
          status_lookup_cons_ne k v c' rest hk', ih]

theorem status_lookup_count_go (c : Nat) :
    ∀ (ps : List (String × PageData)) (acc : List (Nat × Nat)),
      status_lookup (count_status_codes_go ps acc) c =
        status_lookup acc c +
          (ps.filter (fun p => p.2.status_code = c)).length := by
  intro ps
  induction ps with
  | nil => intro acc; simp [count_status_codes_go]
  | cons p rest ih =>
    intro acc
    rw [count_status_codes_go, ih]
    by_cases hc : p.2.status_code = c
    · rw [hc, status_lookup_bump_self]
      rw [List.filter_cons, if_pos (by simpa using hc)]
      simp only [List.length_cons]
      omega
    · rw [status_lookup_bump_ne p.2.status_code c hc]
      rw [List.filter_cons, if_neg (by simpa using hc)]

theorem status_lookup_count (ps : List (String × PageData)) (c : Nat) :
    status_lookup (count_status_codes ps) c =
      (ps.filter (fun p => p.2.status_code = c)).length := by
  rw [count_status_codes, status_lookup_count_go, status_lookup_nil,
    Nat.zero_add]

/-! ### Claim theorems -/

/-- C2: in every crawl run each URL appears at most once across the
union of the result's `pages` and `errors` mappings (their key lists
concatenated are pairwise distinct), the fetch worker `_process_url` is
invoked at most once per URL (the dispatch log holds pairwise-distinct
URLs), and no URL in the frontier is ever marked visited — once visited
a URL is never re-enqueued or re-fetched. -/
theorem C2_no_duplicate_fetches (cfg : Config) (web : String → FetchOutcome)
    (uj : String → String → String) (fuel : Nat) (seed : String) :
    ((crawl cfg web uj fuel seed).pages.map Prod.fst ++
      (crawl cfg web uj fuel seed).errors.map Prod.fst).Nodup ∧
    ((crawl_state cfg web uj fuel seed).fetched_log.map Prod.fst).Nodup ∧
    (∀ e ∈ (crawl_state cfg web uj fuel seed).urls_to_visit,
      e.url ∉ (crawl_state cfg web uj fuel seed).visited_urls) := by
  have h := inv_crawl_state cfg web uj fuel seed
  exact ⟨h.keys_nodup, h.fetched_nodup, h.front_unvisited⟩

/-- C6: every dispatched `(url, depth)` pair of a crawl run has
`depth ≤ maxDepth` (the depth recorded in the frontier is the number of
link hops of the discovery chain: the seed enters at 0, links of a
depth-`d` page enter at `d + 1`), every page of the result was fetched
at such a depth, and the frontier-growth step enqueues nothing for a
page whose originating depth has reached `maxDepth`. -/
theorem C6_depth_bound (cfg : Config) (web : String → FetchOutcome)
    (uj : String → String → String) (fuel : Nat) (seed : String) :
    (∀ p ∈ (crawl_state cfg web uj fuel seed).fetched_log,
      p.2 ≤ cfg.max_depth) ∧
    (∀ u pd, (u, pd) ∈ (crawl cfg web uj fuel seed).pages →
      ∃ d, (u, d) ∈ (crawl_state cfg web uj fuel seed).fetched_log ∧
        d ≤ cfg.max_depth) ∧
    (∀ (base : String) (visited : List String) (frontier : List Entry)
        (d : Nat) (links : List String), cfg.max_depth ≤ d →
      add_new_urls cfg base visited frontier d links = frontier) := by
  have h := inv_crawl_state cfg web uj fuel seed
  refine ⟨h.fetched_depth, ?_, ?_⟩
  · intro u pd hmem
    have hu : u ∈ (crawl_state cfg web uj fuel seed).pages_data.map
        Prod.fst := List.mem_map_of_mem Prod.fst hmem
    rcases List.mem_map.mp
        (h.keys_fetched u (List.mem_append_left _ hu)) with ⟨p, hp, hpe⟩
    refine ⟨p.2, ?_, h.fetched_depth p hp⟩
    rw [← hpe]
    exact hp
  · intro base visited frontier d links hd
    exact add_new_urls_stop cfg base visited frontier d links hd

/-- C7 (amended): every URL dispatched during a crawl run whose fetch
classifies to a failure — non-HTML content type
(`"Not HTML content: ..."`), HTTP status ≥ 400 (`"HTTP status ..."`), or
an exception (its `str(e)` message) — is recorded under that URL in the
final result's `errors` mapping, provided the message is non-empty; the
crawl loop continues past it (the final result exists and contains the
entry).  The original claim fails for exceptions whose message is empty:
Python's `if error:` is falsy for `""`, so such a URL is silently
dropped (see the counterexample). -/
theorem C7_errors_recorded (cfg : Config) (web : String → FetchOutcome)
    (uj : String → String → String) (fuel : Nat) (seed u : String)
    (d : Nat) (msg : String)
    (hf : (u, d) ∈ (crawl_state cfg web uj fuel seed).fetched_log)
    (he : fetch_error web uj (url_base seed) u = some msg)
    (hne : msg ≠ "") :
    (u, msg) ∈ (crawl cfg web uj fuel seed).errors := by
  have h := inv_crawl_state cfg web uj fuel seed
  exact h.err_rec (u, d) hf msg he hne

/-- Witness for C7: a crawl of `webC7w` dispatches
`https://example.com/broken`, whose fetch classifies to
`HTTP status 500`, and the final result records exactly that entry. -/
theorem C7_errors_recorded_witness :
    ("https://example.com/broken", 1) ∈
      (crawl_state cfgDefault webC7w urljoin_model 5
        "https://example.com").fetched_log ∧
    fetch_error webC7w urljoin_model (url_base "https://example.com")
      "https://example.com/broken" = some "HTTP status 500" ∧
    ("https://example.com/broken", "HTTP status 500") ∈
      (crawl cfgDefault webC7w urljoin_model 5
        "https://example.com").errors :=
  ⟨by decide, by decide,
   C7_errors_recorded cfgDefault webC7w urljoin_model 5
     "https://example.com" "https://example.com/broken" 1 "HTTP status 500"
     (by decide) (by decide) (by decide)⟩

/-- Counterexample to C7 as stated: the seed's fetch raises an
exception whose message is empty (as `asyncio.TimeoutError` stringifies
to `""`).  The URL is dispatched, yet the final result records it
neither in `errors` (as the claim requires) nor in `pages`. -/
theorem C7_empty_message_counterexample :
    (crawl_state cfgDefault webC7 urljoin_model 3
        "https://example.com").fetched_log = [("https://example.com", 0)] ∧
    (crawl cfgDefault webC7 urljoin_model 3 "https://example.com").errors
      = [] ∧
    (crawl cfgDefault webC7 urljoin_model 3 "https://example.com").pages
      = [] :=
  ⟨by decide, by decide, by decide⟩

/-- C9: the crawl statistics are exactly as specified:
`totalPagesCrawled` and `totalErrors` are the sizes of the two
mappings, the two averages are arithmetic means over collected pages
(0 when there are none), and `pagesByStatusCode` is the histogram of
`statusCode` over collected pages. -/
theorem C9_stats_correct (cfg : Config) (web : String → FetchOutcome)
    (uj : String → String → String) (fuel : Nat) (seed : String) :
    let r := crawl cfg web uj fuel seed
    r.crawl_stats.total_pages_crawled = r.pages.length ∧
    r.crawl_stats.total_errors = r.errors.length ∧
    r.crawl_stats.average_page_size_kb =
      mean_q (r.pages.map (fun p => (p.2.html.length : ℚ) / 1024)) ∧
    r.crawl_stats.average_load_time_ms =
      mean_q (r.pages.map (fun p => (p.2.load_time_ms : ℚ))) ∧
    ∀ s : Nat, status_lookup r.crawl_stats.pages_by_status_code s =
      (r.pages.filter (fun p => p.2.status_code = s)).length :=
  ⟨rfl, rfl, calculate_avg_page_size_eq _, calculate_avg_load_time_eq _,
   fun s => status_lookup_count _ s⟩

/-- C10: when the admission filter rejects the seed URL itself, the
crawl completes normally with both the `pages` and `errors` mappings
empty — the rejection is silent. -/
theorem C10_rejected_seed_empty_result (cfg : Config)
    (web : String → FetchOutcome) (uj : String → String → String)
    (fuel : Nat) (seed : String)
    (hsv : should_visit seed (url_base seed) = false) :
    (crawl cfg web uj fuel seed).pages = [] ∧
      (crawl cfg web uj fuel seed).errors = [] :=
  crawl_rejected_empty cfg web uj fuel seed hsv

/-- Witness for C10: the seed `https://example.com/a#b` carries a
fragment, so the admission filter rejects it and the result is empty. -/
theorem C10_rejected_seed_empty_result_witness :
    should_visit "https://example.com/a#b"
        (url_base "https://example.com/a#b") = false ∧
    ((crawl cfgDefault webEmpty urljoin_model 3
        "https://example.com/a#b").pages = [] ∧
     (crawl cfgDefault webEmpty urljoin_model 3
        "https://example.com/a#b").errors = []) :=
  ⟨by decide,
   C10_rejected_seed_empty_result cfgDefault webEmpty urljoin_model 3
     "https://example.com/a#b" (by decide)⟩

/-- C5 (amended): the engine defines no `ConfigError` and validates
nothing.  An invalid (unparseable) seed URL never raises: whenever the
run returns at all, it returns an ordinary `CrawlResult` with empty
`pages` and `errors`.  Non-positive limits are not surfaced as a
`ConfigError` either, and are not uniformly fatal: the only exception
on the configuration path is `asyncio.Semaphore`'s `ValueError` for a
negative `maxConcurrentRequests` (crawler.py line 96, before any
network activity), an incidental library error, not an engine-defined
one; and with `maxConcurrentRequests = 0` the round loop makes no
progress at any fuel (third conjunct), so with a positive page budget
the `while` loop spins forever and the caller never receives a
`CrawlResult`.  (`maxPages ≤ 0` and `maxDepth ≤ 0` return normally.) -/
theorem C5_no_validation (cfg : PyConfig) (web : String → FetchOutcome)
    (uj : String → String → String) (fuel : Nat) :
    (∀ r, crawl_py cfg web uj fuel "not a url" = .returns r →
      r.pages = [] ∧ r.errors = []) ∧
    ((crawl_py cfg web uj fuel "not a url" =
        .raises "ValueError: Semaphore initial value must be >= 0") ↔
      cfg.max_concurrent_requests < 0) ∧
    (∀ (c : Config) (base : String) (f : Nat) (st : CrawlState),
      c.max_concurrent_requests = 0 →
        crawl_loop c web uj base f st = st) := by
  refine ⟨?_, ?_, ?_⟩
  · intro r hr
    rw [crawl_py] at hr
    by_cases h1 : cfg.max_concurrent_requests < 0
    · rw [if_pos h1] at hr
      exact absurd hr (by simp)
    · rw [if_neg h1] at hr
      by_cases h2 : cfg.max_concurrent_requests = 0 ∧ 0 < cfg.max_pages
      · rw [if_pos h2] at hr
        exact absurd hr (by simp)
      · rw [if_neg h2] at hr
        injection hr with hr'
        rw [← hr']
        exact crawl_rejected_empty cfg.clamp web uj fuel "not a url"
          (by decide)
  · constructor
    · intro h
      by_contra h1
      rw [crawl_py, if_neg h1] at h
      by_cases h2 : cfg.max_concurrent_requests = 0 ∧ 0 < cfg.max_pages
      · rw [if_pos h2] at h
        exact absurd h (by simp)
      · rw [if_neg h2] at h
        exact absurd h (by simp)
    · intro h1
      rw [crawl_py, if_pos h1]
  · intro c base f st hmc
    exact crawl_loop_mcr_zero c web uj base hmc f st

/-- Counterexample to C5 as stated: with an unparseable seed and the
default limits, the `crawl` entry raises nothing — it returns an
ordinary `CrawlResult` (base origin `"://"`, no pages, no errors); no
`ConfigError` exists anywhere in the engine's control flow. -/
theorem C5_no_config_error_counterexample :
    crawl_py pyCfgDefault webC5 urljoin_model 3 "not a url" =
      .returns (crawl cfgDefault webC5 urljoin_model 3 "not a url") ∧
    (crawl cfgDefault webC5 urljoin_model 3 "not a url").base_url
      = "://" ∧
    (crawl cfgDefault webC5 urljoin_model 3 "not a url").pages = [] ∧
    (crawl cfgDefault webC5 urljoin_model 3 "not a url").errors = [] :=
  ⟨by decide, by decide, by decide, by decide⟩

/-- C3 (amended): `shouldVisit` is a pure function (it is a function of
its two arguments alone) and returns `false` exactly when at least one
holds: the URL does not start with the origin string (a string-prefix
test, not an exact scheme+host comparison — see the counterexample),
the URL contains a `#` character, or the lowercased URL ends with one
of the fixed denylist of non-content extensions. -/
theorem C3_should_visit_characterization (url base_url : String) :
    should_visit url base_url = false ↔
      (strStartsWith url base_url = false ∨
        url.data.contains '#' = true ∨
        ∃ ext ∈ skip_extensions,
          strEndsWith (strToLower url) ext = true) := by
  rw [should_visit]
  by_cases hs : strStartsWith url base_url = true
  · rw [if_neg (not_not_intro hs)]
    by_cases hc : url.data.contains '#' = true
    · rw [if_pos hc]
      exact iff_of_true rfl (Or.inr (Or.inl hc))
    · rw [if_neg hc]
      by_cases ha : skip_extensions.any
          (fun ext => strEndsWith (strToLower url) ext) = true
      · rw [if_pos ha]
        exact iff_of_true rfl (Or.inr (Or.inr (List.any_eq_true.mp ha)))
      · rw [if_neg ha]
        refine iff_of_false (by simp) ?_
        rintro (h | h | ⟨ext, hext, h⟩)
        · rw [h] at hs
          exact Bool.false_ne_true hs
        · exact hc h
        · exact ha (List.any_eq_true.mpr ⟨ext, hext, h⟩)
  · rw [if_pos hs]
    have hs' : strStartsWith url base_url = false := by
      cases hh : strStartsWith url base_url
      · rfl
      · exact absurd hh hs
    exact iff_of_true rfl (Or.inl hs')

/-- Counterexample to C3 as stated: `https://example.com.evil.com/x`
has scheme+host `https://example.com.evil.com`, different from the
origin `https://example.com`, yet `shouldVisit` accepts it — the code
performs `url.startswith(base_url)`, a plain prefix test. -/
theorem C3_prefix_admission_counterexample :
    should_visit "https://example.com.evil.com/x" "https://example.com"
        = true ∧
      url_base "https://example.com.evil.com/x" ≠ "https://example.com" :=
  ⟨by decide, by decide⟩

/-- C4 (amended): for every page record the extractor produces,
`internal_links` and `external_links` are disjoint and are exactly the
first-seen-order de-duplications of the resolved, fragment-stripped
URLs of the kept anchors, classified by whether the resolved URL starts
with the crawl origin.  The anchors considered are those *surviving*
the script/style/header/footer/nav removal that `_extract_content`
performs on the shared soup (not all anchors of the input HTML), and an
anchor is kept whenever its trimmed href is non-empty and does not
start with `javascript:`/`mailto:`/`tel:` — in particular a
fragment-only href is kept and resolves to the page's own URL (see the
counterexample for both divergences from the original claim). -/
theorem C4_links_partition (web : String → FetchOutcome)
    (uj : String → String → String) (u : String) (d : Nat)
    (b ct : String) (status hm bm : Nat) (doc : Doc) (pd : PageData)
    (hw : web u = .response ct status hm bm doc)
    (hp : (process_url web uj u d b).2.1 = some pd) :
    pd.internal_links =
      dedup_first_seen ((link_candidates uj u (live_hrefs doc)).filter
        (fun h => strStartsWith h b)) ∧
    pd.external_links =
      dedup_first_seen ((link_candidates uj u (live_hrefs doc)).filter
        (fun h => ! strStartsWith h b)) ∧
    ∀ l ∈ pd.internal_links, l ∉ pd.external_links := by
  simp only [process_url, hw] at hp
  by_cases h1 : str_in "text/html" (strToLower ct) = true
  · by_cases h2 : 400 ≤ status
    · rw [if_neg (not_not_intro h1), if_pos h2] at hp
      simp at hp
    · rw [if_neg (not_not_intro h1), if_neg h2] at hp
      simp only [Option.some.injEq] at hp
      subst hp
      refine ⟨?_, ?_, ?_⟩
      · show (extract_links uj (live_hrefs doc) b u).1 = _
        rw [extract_links_eq]
      · show (extract_links uj (live_hrefs doc) b u).2 = _
        rw [extract_links_eq]
      · intro l hl hl'
        have h1m : l ∈ (link_candidates uj u (live_hrefs doc)).filter
            (fun h => strStartsWith h b) := by
          have := hl
          rw [show (PageData.internal_links _) =
            (extract_links uj (live_hrefs doc) b u).1 from rfl,
            extract_links_eq] at this
          exact (mem_dedup_first_seen _ _).mp this
        have h2m : l ∈ (link_candidates uj u (live_hrefs doc)).filter
            (fun h => ! strStartsWith h b) := by
          have := hl'
          rw [show (PageData.external_links _) =
            (extract_links uj (live_hrefs doc) b u).2 from rfl,
            extract_links_eq] at this
          exact (mem_dedup_first_seen _ _).mp this
        have hpos := (List.mem_filter.mp h1m).2
        have hneg := (List.mem_filter.mp h2m).2
        rw [hpos] at hneg
        simp at hneg
  · rw [if_pos h1] at hp
    simp at hp

/-- Witness for C4: a page of `example.com` with one root-relative and
one absolute external anchor; its links are partitioned as the amended
claim states. -/
theorem C4_links_partition_witness :
    (process_url webC4w urljoin_model "https://example.com" 0
        "https://example.com").2.1 = some pdC4 ∧
    (pdC4.internal_links =
      dedup_first_seen
        ((link_candidates urljoin_model "https://example.com"
          (live_hrefs (mkDoc [⟨"/a", false⟩, ⟨"https://other.com/y", false⟩]
            "h"))).filter
          (fun h => strStartsWith h "https://example.com")) ∧
     pdC4.external_links =
      dedup_first_seen
        ((link_candidates urljoin_model "https://example.com"
          (live_hrefs (mkDoc [⟨"/a", false⟩, ⟨"https://other.com/y", false⟩]
            "h"))).filter
          (fun h => ! strStartsWith h "https://example.com")) ∧
     ∀ l ∈ pdC4.internal_links, l ∉ pdC4.external_links) :=
  ⟨by decide,
   C4_links_partition webC4w urljoin_model "https://example.com" 0
     "https://example.com" "text/html" 200 1 2
     (mkDoc [⟨"/a", false⟩, ⟨"https://other.com/y", false⟩] "h") pdC4 rfl
     (by decide)⟩

/-- Counterexample to C4 as stated: on the page
`https://example.com/page`, a fragment-only anchor `#top` (which the
claim says is excluded) is extracted as an internal link to the page's
own URL, and an anchor `/nav-link` sitting inside a nav subtree (an
anchor of the input HTML with a valid href, which the claim says is
covered) is dropped, because `_extract_content` decomposes those
subtrees from the shared soup before `_extract_links` runs. -/
theorem C4_links_counterexample :
    ((process_url webC4 urljoin_model "https://example.com/page" 0
        "https://example.com").2.1).map
        (fun pd => (pd.internal_links, pd.external_links)) =
      some (["https://example.com/page"], []) := by decide

/-- C8 (amended): the `loadTimeMs` stamped on a successfully fetched
page is the wall-clock milliseconds from the start of the HTTP request
until the response object is returned (headers received) — the code
reads the clock immediately after `session.get(...)` and *before*
`response.text()` reads the body, so the body-read time is not
included (see the counterexample). -/
theorem C8_load_time_headers (web : String → FetchOutcome)
    (uj : String → String → String) (u : String) (d : Nat)
    (b ct : String) (status hm bm : Nat) (doc : Doc) (pd : PageData)
    (hw : web u = .response ct status hm bm doc)
    (hp : (process_url web uj u d b).2.1 = some pd) :
    pd.load_time_ms = hm := by
  simp only [process_url, hw] at hp
  by_cases h1 : str_in "text/html" (strToLower ct) = true
  · by_cases h2 : 400 ≤ status
    · rw [if_neg (not_not_intro h1), if_pos h2] at hp
      simp at hp
    · rw [if_neg (not_not_intro h1), if_neg h2] at hp
      simp only [Option.some.injEq] at hp
      subst hp
      rfl
  · rw [if_pos h1] at hp
    simp at hp

/-- Witness for C8: `webC8` returns headers after 100 ms; the page
record is stamped with `loadTimeMs = 100`. -/
theorem C8_load_time_headers_witness :
    (process_url webC8 urljoin_model "https://example.com" 0
        "https://example.com").2.1 = some pdC8 ∧
      pdC8.load_time_ms = 100 :=
  ⟨by decide,
   C8_load_time_headers webC8 urljoin_model "https://example.com" 0
     "https://example.com" "text/html" 200 100 250 (mkDoc [] "h") pdC8 rfl
     (by decide)⟩

/-- Counterexample to C8 as stated: for a response whose headers arrive
at 100 ms and whose body is fully read at 250 ms after the request
starts, the page record carries `loadTimeMs = 100`, not the 250 ms that
"until the response body has been fully read" requires. -/
theorem C8_load_time_counterexample :
    ((process_url webC8 urljoin_model "https://example.com" 0
        "https://example.com").2.1).map PageData.load_time_ms = some 100 ∧
    ((process_url webC8 urljoin_model "https://example.com" 0
        "https://example.com").2.1).map PageData.load_time_ms ≠ some 250 :=
  ⟨by decide, by decide⟩

/-- C1 is a code bug: the budget is only checked between rounds, and
every success of a round is recorded, so a run can exceed `maxPages`.
With `maxPages = 2` and `maxConcurrentRequests = 3`, a seed page
linking to three admissible pages that all answer HTML 200 yields a
`CrawlResult` with 4 pages — more than the configured maximum, in
contradiction with the claim (and with the crawler docstring's
"Maximum number of pages to crawl"). -/
theorem C1_budget_overshoot :
    cfgC1.max_pages = 2 ∧
      (crawl cfgC1 webC1 urljoin_model 5
        "https://example.com").pages.length = 4 :=
  ⟨rfl, by decide⟩

end SeoSage
